import Mathlib

/-!
Verification of the statechart core of the products-fetching application.

The repository defines `productsMachine` (src/src/components/products.jsx,
an xstate `createMachine` call) with flat states `idle`, `loading`,
`success`, `error`, a context `{data, error}`, an invoked asynchronous
service on `loading`, and `assign` actions on the service outcome
transitions.  The statechart runtime itself (interpreter, service
invoker, definition validator) is not part of the repository sources, so
it is modelled here from the specification (sections 3, 4.1-4.4) and the
machine definition is translated from the source.
-/

/-- Values flowing through the machine: JSON-like data (the fetched
product list, error payloads), with `vnull` standing for JavaScript
`null`. -/
inductive Value where
  | vnull : Value
  | vstr (s : String) : Value
  | vnum (n : Int) : Value
  | vlist (items : List Value) : Value
  | vobj (fields : List (String × Value)) : Value

/-- The machine context from the source definition: `{ data, error }`,
both nullable. -/
structure Context where
  data : Value
  error : Value

/-- A property assigner inside an `assign({...})` action: either a fixed
value (e.g. `error: null`) or a function of the context and the event
payload (e.g. `data: (_, event) => event.data`; the function receives
`event.data` as its second argument). -/
inductive PropAssigner where
  | val (v : Value) : PropAssigner
  | fn (f : Context → Value → Value) : PropAssigner

/-- An `assign` action: for each context field, optionally a new
assigner.  A missing field keeps its prior value (shallow-merge
semantics, spec section 3 "Action"). -/
structure AssignAction where
  data : Option PropAssigner
  error : Option PropAssigner

/-- A transition: target state name plus an ordered sequence of assign
actions (spec section 3 "Transition"). -/
structure Transition where
  target : String
  actions : List AssignAction

/-- An invoked service descriptor: service identifier and the `onDone`
and `onError` transitions (spec section 3 "InvokedService"). -/
structure InvokedService where
  src : String
  onDone : Transition
  onError : Transition

/-- Kind of a state node: `normal` or `final` (spec section 3
"StateNode"). -/
inductive StateType where
  | normal : StateType
  | final : StateType

instance : DecidableEq StateType := fun a b => by
  cases a <;> cases b <;> first
    | exact isTrue rfl
    | exact isFalse (fun h => StateType.noConfusion h)

/-- A state node: its type, its event-to-transition mapping `on`, and an
optional invoked service (spec section 3 "StateNode"). -/
structure StateNode where
  type : StateType
  onEvents : List (String × Transition)
  invoke : Option InvokedService

/-- A machine definition: id, initial state name, initial context, and
the mapping from state names to state nodes (spec section 3
"MachineDefinition"). -/
structure MachineDefinition where
  id : String
  initial : String
  context : Context
  states : List (String × StateNode)

/-- Name lookup in an association list keyed by strings. -/
def lookupName (name : String) : List (String × α) → Option α
  | [] => none
  | (k, v) :: rest => if k = name then some v else lookupName name rest

/-- Applies one assign action: each declared property assigner is
evaluated against the incoming context and the event payload; undeclared
fields are kept (spec section 4.4). -/
def applyAssign (a : AssignAction) (ctx : Context) (payload : Value) : Context :=
  { data :=
      match a.data with
      | some (PropAssigner.val v) => v
      | some (PropAssigner.fn f) => f ctx payload
      | none => ctx.data
  , error :=
      match a.error with
      | some (PropAssigner.val v) => v
      | some (PropAssigner.fn f) => f ctx payload
      | none => ctx.error }

/-- Applies an ordered action sequence left to right; each action sees
the result of the prior action (sequential application, spec section
4.4). -/
def applyActions (acts : List AssignAction) (ctx : Context) (payload : Value) : Context :=
  acts.foldl (fun c a => applyAssign a c payload) ctx

/-- The `onDone` transition of the `loading` state's invoked service,
from the source: target `success`, `assign({ data: (_, event) =>
event.data, error: null })`. -/
def loadingOnDone : Transition :=
  { target := "success"
  , actions := [{ data := some (PropAssigner.fn fun _ ev => ev)
                , error := some (PropAssigner.val Value.vnull) }] }

/-- The `onError` transition of the `loading` state's invoked service,
from the source: target `error`, `assign({ error: (_, event) =>
event.data })`. -/
def loadingOnError : Transition :=
  { target := "error"
  , actions := [{ data := none
                , error := some (PropAssigner.fn fun _ ev => ev) }] }

/-- The `idle` state node from the source: `on: { FETCH: "loading" }`. -/
def idleNode : StateNode :=
  { type := StateType.normal
  , onEvents := [("FETCH", { target := "loading", actions := [] })]
  , invoke := none }

/-- The `loading` state node from the source: invokes
`fetchProductsData` with the `onDone` and `onError` transitions. -/
def loadingNode : StateNode :=
  { type := StateType.normal
  , onEvents := []
  , invoke := some
      { src := "fetchProductsData"
      , onDone := loadingOnDone
      , onError := loadingOnError } }

/-- The `success` state node from the source: `type: "final"`. -/
def successNode : StateNode :=
  { type := StateType.final
  , onEvents := []
  , invoke := none }

/-- The `error` state node from the source: `on: { RETRY: "loading" }`. -/
def errorNode : StateNode :=
  { type := StateType.normal
  , onEvents := [("RETRY", { target := "loading", actions := [] })]
  , invoke := none }

/-- The products machine, translated from the source
(src/src/components/products.jsx): initial state `idle`, context
`{ data: null, error: null }`, states `idle`, `loading` (invoking
`fetchProductsData`), `success` (final) and `error`. -/
def productsMachine : MachineDefinition :=
  { id := "products"
  , initial := "idle"
  , context := { data := Value.vnull, error := Value.vnull }
  , states :=
      [ ("idle", idleNode)
      , ("loading", loadingNode)
      , ("success", successNode)
      , ("error", errorNode) ] }

/-- Modelled from the spec: the interpreter instance state (spec section
3 "Interpreter instance" and section 4.2).  `state` is the current state
name, `context` the current context; `activeToken` is the generation
token of the pending invocation (`none` when no invocation is pending)
and `nextToken` the counter supplying fresh tokens. -/
structure InterpState where
  state : String
  context : Context
  activeToken : Option Nat
  nextToken : Nat

/-- Modelled from the spec: events processed by the interpreter.
`ext name payload` is a consumer `send`; `resolve tok v` and
`reject tok e` are the synthetic events delivered by the service invoker
when the invocation tagged `tok` settles (spec sections 4.1, 4.2). -/
inductive Event where
  | ext (name : String) (payload : Value) : Event
  | resolve (token : Nat) (v : Value) : Event
  | reject (token : Nat) (e : Value) : Event

/-- Modelled from the spec: entry effects of a state (spec section 4.1).
Sets the current state to `target`; if the target declares an invoked
service, starts it exactly once, tagged with a fresh generation token
(spec section 4.2); otherwise no invocation is pending. -/
def enterState (M : MachineDefinition) (target : String) (s : InterpState) : InterpState :=
  match lookupName target M.states with
  | some node =>
      match node.invoke with
      | some _ =>
          { s with state := target
                 , activeToken := some s.nextToken
                 , nextToken := s.nextToken + 1 }
      | none => { s with state := target, activeToken := none }
  | none => { s with state := target, activeToken := none }

/-- Modelled from the spec: taking a transition (spec section 4.1).
Exit effects have already cancelled the pending invocation; the
transition's actions are applied in order to produce the new context,
then the target state's entry effects run. -/
def applyTransition (M : MachineDefinition) (t : Transition) (payload : Value)
    (s : InterpState) : InterpState :=
  enterState M t.target { s with context := applyActions t.actions s.context payload }

/-- Modelled from the spec: one interpreter step (spec sections 4.1 and
4.2).  A consumer event is ignored in a `final` state and when the
current state's `on` does not declare it; otherwise the pending
invocation is cancelled (exit effect) and the transition is taken.  A
service settlement is delivered only when its generation token still
matches the active one; otherwise the result is discarded.  The step is
a total function: no event ever raises an error to the consumer. -/
def step (M : MachineDefinition) (s : InterpState) (e : Event) : InterpState :=
  match lookupName s.state M.states with
  | none => s
  | some node =>
      match e with
      | Event.ext name payload =>
          if node.type = StateType.final then s
          else
            match lookupName name node.onEvents with
            | some t => applyTransition M t payload { s with activeToken := none }
            | none => s
      | Event.resolve tok v =>
          if s.activeToken = some tok then
            match node.invoke with
            | some inv => applyTransition M inv.onDone v { s with activeToken := none }
            | none => s
          else s
      | Event.reject tok e =>
          if s.activeToken = some tok then
            match node.invoke with
            | some inv => applyTransition M inv.onError e { s with activeToken := none }
            | none => s
          else s

/-- Modelled from the spec: `start()` (spec section 4.1): state is the
initial state, context the definition default, and the initial state's
entry effects run. -/
def startMachine (M : MachineDefinition) : InterpState :=
  enterState M M.initial
    { state := M.initial, context := M.context, activeToken := none, nextToken := 0 }

/-- Runs a list of events from a given interpreter state. -/
def runFrom (M : MachineDefinition) (s : InterpState) (events : List Event) : InterpState :=
  events.foldl (step M) s

/-- Runs a list of events from the started machine. -/
def run (M : MachineDefinition) (events : List Event) : InterpState :=
  runFrom M (startMachine M) events

/-- The read-only snapshot projection handed to subscribers: state name
plus context (spec section 3 "Snapshot"). -/
def getSnapshot (s : InterpState) : String × Context :=
  (s.state, s.context)

/-- The `trimString` helper of ProductCard, translated from the source
(a JavaScript string modelled as its character sequence):
`originalString.length > 20 ? originalString.substring(0, 15) + "..." :
originalString`. -/
def trimString (originalString : List Char) : List Char :=
  if originalString.length > 20
  then originalString.take 15 ++ ['.', '.', '.']
  else originalString

/-- Modelled from the spec: construction-time validation errors (spec
section 7 "DefinitionError"): bad initial state, dangling transition
target (with the offending state, field and target), or an invalid
final-state shape. -/
inductive DefinitionError where
  | badInitial (name : String) : DefinitionError
  | danglingTarget (state field target : String) : DefinitionError
  | invalidFinal (state : String) : DefinitionError

/-- Whether a state name is declared among the machine's states. -/
def declared (M : MachineDefinition) (name : String) : Bool :=
  M.states.any (fun p => p.1 = name)

/-- All transition targets of a definition, each tagged with the state
and field it occurs in: every `on.*` target and every
`invoke.onDone`/`invoke.onError` target (spec section 4.3). -/
def transitionTargets (M : MachineDefinition) : List (String × String × String) :=
  M.states.flatMap (fun p =>
    p.2.onEvents.map (fun q => (p.1, "on." ++ q.1, q.2.target)) ++
    (match p.2.invoke with
     | some inv =>
         [(p.1, "invoke.onDone", inv.onDone.target),
          (p.1, "invoke.onError", inv.onError.target)]
     | none => []))

/-- Whether a final state has the required terminal shape: no outgoing
`on` transitions and no `invoke` (spec section 3 "StateNode"). -/
def finalShapeOk (node : StateNode) : Bool :=
  match node.type with
  | StateType.final => node.onEvents.isEmpty && node.invoke.isNone
  | StateType.normal => true

/-- Modelled from the spec: `createMachine` validates a
MachineDefinition at construction time (spec section 4.3): the initial
state must exist, every transition target must be declared, and final
states must be terminal.  On violation it fails with a
`DefinitionError` naming the offending state/field and produces no
machine value. -/
def createMachine (M : MachineDefinition) : Except DefinitionError MachineDefinition :=
  if declared M M.initial = false then
    Except.error (DefinitionError.badInitial M.initial)
  else
    match (transitionTargets M).find? (fun x => !(declared M x.2.2)) with
    | some x => Except.error (DefinitionError.danglingTarget x.1 x.2.1 x.2.2)
    | none =>
        match M.states.find? (fun p => !(finalShapeOk p.2)) with
        | some p => Except.error (DefinitionError.invalidFinal p.1)
        | none => Except.ok M

/-- A machine definition with a dangling transition target: state `a`
declares `on: { GO: "b" }` but `b` is not a declared state. -/
def danglingMachine : MachineDefinition :=
  { id := "bad"
  , initial := "a"
  , context := { data := Value.vnull, error := Value.vnull }
  , states :=
      [ ("a",
          { type := StateType.normal
          , onEvents := [("GO", { target := "b", actions := [] })]
          , invoke := none }) ] }

/-- The machine invariant used for reachability arguments: the current
state name is one of the four declared names, and outside the final
`success` state the `data` field is still `null` (only the `onDone`
action ever assigns `data`, and its target is `success`). -/
def MachineInv (s : InterpState) : Prop :=
  s.state ∈ ["idle", "loading", "success", "error"] ∧
  (s.state ≠ "success" → s.context.data = Value.vnull)

/-- In `idle`, `FETCH` enters `loading` and starts the invocation with a
fresh token. -/
theorem step_idle_fetch (ctx : Context) (atok : Option Nat) (nt : Nat) (payload : Value) :
    step productsMachine ⟨"idle", ctx, atok, nt⟩ (Event.ext "FETCH" payload) =
      ⟨"loading", ctx, some nt, nt + 1⟩ := rfl

/-- In `idle`, any consumer event other than `FETCH` is dropped. -/
theorem step_idle_other (ctx : Context) (atok : Option Nat) (nt : Nat)
    (name : String) (payload : Value) (hn : ¬ ("FETCH" = name)) :
    step productsMachine ⟨"idle", ctx, atok, nt⟩ (Event.ext name payload) =
      ⟨"idle", ctx, atok, nt⟩ := by
  simp [step, productsMachine, idleNode, lookupName, hn]

/-- In `loading`, every consumer event is dropped (its `on` map is
empty). -/
theorem step_loading_ext (ctx : Context) (atok : Option Nat) (nt : Nat)
    (name : String) (payload : Value) :
    step productsMachine ⟨"loading", ctx, atok, nt⟩ (Event.ext name payload) =
      ⟨"loading", ctx, atok, nt⟩ := rfl

/-- In `loading`, a resolution carrying the active token takes the
`onDone` transition into `success`, assigning `data` and clearing
`error`. -/
theorem step_loading_resolve (ctx : Context) (tok nt : Nat) (v : Value) :
    step productsMachine ⟨"loading", ctx, some tok, nt⟩ (Event.resolve tok v) =
      ⟨"success", { data := v, error := Value.vnull }, none, nt⟩ := by
  simp [step, productsMachine, loadingNode, lookupName, loadingOnDone,
    applyTransition, applyActions, applyAssign, enterState, successNode]

/-- In `loading`, a rejection carrying the active token takes the
`onError` transition into `error`, assigning `error` and keeping
`data`. -/
theorem step_loading_reject (d er : Value) (tok nt : Nat) (ev : Value) :
    step productsMachine ⟨"loading", ⟨d, er⟩, some tok, nt⟩ (Event.reject tok ev) =
      ⟨"error", ⟨d, ev⟩, none, nt⟩ := by
  simp [step, productsMachine, loadingNode, lookupName, loadingOnError,
    applyTransition, applyActions, applyAssign, enterState, errorNode]

/-- In `success` (a final state), every consumer event is ignored. -/
theorem step_success_ext (ctx : Context) (atok : Option Nat) (nt : Nat)
    (name : String) (payload : Value) :
    step productsMachine ⟨"success", ctx, atok, nt⟩ (Event.ext name payload) =
      ⟨"success", ctx, atok, nt⟩ := rfl

/-- In `error`, `RETRY` re-enters `loading` and starts a fresh
invocation with a new token. -/
theorem step_error_retry (ctx : Context) (atok : Option Nat) (nt : Nat) (payload : Value) :
    step productsMachine ⟨"error", ctx, atok, nt⟩ (Event.ext "RETRY" payload) =
      ⟨"loading", ctx, some nt, nt + 1⟩ := rfl

/-- In `error`, any consumer event other than `RETRY` is dropped. -/
theorem step_error_other (ctx : Context) (atok : Option Nat) (nt : Nat)
    (name : String) (payload : Value) (hn : ¬ ("RETRY" = name)) :
    step productsMachine ⟨"error", ctx, atok, nt⟩ (Event.ext name payload) =
      ⟨"error", ctx, atok, nt⟩ := by
  simp [step, productsMachine, errorNode, lookupName, hn]

/-- A settlement event whose token is not the active one is discarded:
the interpreter state is unchanged. -/
theorem step_stale_resolve (s : InterpState) (tok : Nat) (v : Value)
    (h : s.activeToken ≠ some tok) :
    step productsMachine s (Event.resolve tok v) = s := by
  cases hl : lookupName s.state productsMachine.states with
  | none => simp [step, hl]
  | some node => simp [step, hl, h]

/-- A stale rejection is likewise discarded. -/
theorem step_stale_reject (s : InterpState) (tok : Nat) (v : Value)
    (h : s.activeToken ≠ some tok) :
    step productsMachine s (Event.reject tok v) = s := by
  cases hl : lookupName s.state productsMachine.states with
  | none => simp [step, hl]
  | some node => simp [step, hl, h]

/-- In a state without an invoked service, settlement events never
transition the machine. -/
theorem step_no_invoke_settle (s : InterpState) (node : StateNode) (tok : Nat) (v : Value)
    (hl : lookupName s.state productsMachine.states = some node)
    (hi : node.invoke = none) :
    step productsMachine s (Event.resolve tok v) = s ∧
    step productsMachine s (Event.reject tok v) = s := by
  constructor <;> simp [step, hl, hi]

/-- One interpreter step preserves the machine invariant. -/
theorem stepInv (s : InterpState) (e : Event) (h : MachineInv s) :
    MachineInv (step productsMachine s e) := by
  obtain ⟨hmem, hdata⟩ := h
  obtain ⟨st, ⟨d, er⟩, atok, nt⟩ := s
  change st ∈ _ at hmem
  change st ≠ "success" → d = Value.vnull at hdata
  simp only [List.mem_cons, List.not_mem_nil, or_false] at hmem
  rcases hmem with rfl | rfl | rfl | rfl
  · cases e with
    | ext name payload =>
        by_cases hn : "FETCH" = name
        · subst hn
          rw [step_idle_fetch]
          exact ⟨by simp, fun _ => hdata (by decide)⟩
        · rw [step_idle_other _ _ _ _ _ hn]
          exact ⟨by simp, hdata⟩
    | resolve tok v =>
        rw [(step_no_invoke_settle ⟨"idle", ⟨d, er⟩, atok, nt⟩ idleNode tok v rfl rfl).1]
        exact ⟨by simp, hdata⟩
    | reject tok v =>
        rw [(step_no_invoke_settle ⟨"idle", ⟨d, er⟩, atok, nt⟩ idleNode tok v rfl rfl).2]
        exact ⟨by simp, hdata⟩
  · cases e with
    | ext name payload =>
        rw [step_loading_ext]
        exact ⟨by simp, hdata⟩
    | resolve tok v =>
        by_cases ht : atok = some tok
        · subst ht
          rw [step_loading_resolve]
          exact ⟨by simp, fun hc => absurd rfl hc⟩
        · rw [step_stale_resolve _ _ _ ht]
          exact ⟨by simp, hdata⟩
    | reject tok v =>
        by_cases ht : atok = some tok
        · subst ht
          rw [step_loading_reject]
          exact ⟨by simp, fun _ => hdata (by decide)⟩
        · rw [step_stale_reject _ _ _ ht]
          exact ⟨by simp, hdata⟩
  · cases e with
    | ext name payload =>
        rw [step_success_ext]
        exact ⟨by simp, hdata⟩
    | resolve tok v =>
        rw [(step_no_invoke_settle ⟨"success", ⟨d, er⟩, atok, nt⟩ successNode tok v rfl rfl).1]
        exact ⟨by simp, hdata⟩
    | reject tok v =>
        rw [(step_no_invoke_settle ⟨"success", ⟨d, er⟩, atok, nt⟩ successNode tok v rfl rfl).2]
        exact ⟨by simp, hdata⟩
  · cases e with
    | ext name payload =>
        by_cases hn : "RETRY" = name
        · subst hn
          rw [step_error_retry]
          exact ⟨by simp, fun _ => hdata (by decide)⟩
        · rw [step_error_other _ _ _ _ _ hn]
          exact ⟨by simp, hdata⟩
    | resolve tok v =>
        rw [(step_no_invoke_settle ⟨"error", ⟨d, er⟩, atok, nt⟩ errorNode tok v rfl rfl).1]
        exact ⟨by simp, hdata⟩
    | reject tok v =>
        rw [(step_no_invoke_settle ⟨"error", ⟨d, er⟩, atok, nt⟩ errorNode tok v rfl rfl).2]
        exact ⟨by simp, hdata⟩

/-- The started machine satisfies the invariant. -/
theorem startInv : MachineInv (startMachine productsMachine) :=
  ⟨by decide, fun _ => rfl⟩

/-- Running any event list preserves the machine invariant. -/
theorem runFromInv (s : InterpState) (events : List Event) (h : MachineInv s) :
    MachineInv (runFrom productsMachine s events) := by
  induction events generalizing s with
  | nil => exact h
  | cons e rest ih => exact ih (step productsMachine s e) (stepInv s e h)

/-- Claim C1: stale-result discard.  Any settlement event whose
generation token is not the currently active one leaves the interpreter
state (state name and context) unchanged; and in the concrete
interleaving where invocation A (token 0) is pending in `loading`, the
machine leaves `loading` and re-enters it (invocation B, token 1), a
late settlement of A is discarded whether it arrives before or after
B's settlement: the final state and context reflect only B's result
`vB`, never A's result `vA`. -/
theorem stale_result_discard (s : InterpState) (tok : Nat) (v e vA vB : Value)
    (h : s.activeToken ≠ some tok) :
    step productsMachine s (Event.resolve tok v) = s ∧
    step productsMachine s (Event.reject tok v) = s ∧
    run productsMachine [Event.ext "FETCH" Value.vnull, Event.reject 0 e,
        Event.ext "RETRY" Value.vnull, Event.resolve 0 vA, Event.resolve 1 vB] =
      ⟨"success", ⟨vB, Value.vnull⟩, none, 2⟩ ∧
    run productsMachine [Event.ext "FETCH" Value.vnull, Event.reject 0 e,
        Event.ext "RETRY" Value.vnull, Event.resolve 1 vB, Event.resolve 0 vA] =
      ⟨"success", ⟨vB, Value.vnull⟩, none, 2⟩ :=
  ⟨step_stale_resolve s tok v h, step_stale_reject s tok v h, rfl, rfl⟩

/-- Witness for C1 at a concrete input: the started machine has no
active invocation, so a settlement tagged 0 is discarded. -/
theorem stale_result_discard_witness :
    (startMachine productsMachine).activeToken ≠ some 0 ∧
    step productsMachine (startMachine productsMachine)
        (Event.resolve 0 (Value.vstr "stale")) =
      startMachine productsMachine :=
  ⟨by decide,
   (stale_result_discard (startMachine productsMachine) 0 (Value.vstr "stale")
      Value.vnull Value.vnull Value.vnull (by decide)).1⟩

/-- Claim C2: round-trip success scenario.  The machine starts in `idle`
with context `{data: null, error: null}`; `FETCH` moves it to `loading`;
when the invoked service resolves with any value `v` the machine ends in
`success` with `context.data = v` and `context.error = null`.  Moreover
the `onDone` action sets `error` to `null` unconditionally: for every
prior context (with any non-null `error`) it produces
`{data := payload, error := null}`. -/
theorem round_trip_success (v : Value) :
    startMachine productsMachine =
      ⟨"idle", ⟨Value.vnull, Value.vnull⟩, none, 0⟩ ∧
    run productsMachine [Event.ext "FETCH" Value.vnull] =
      ⟨"loading", ⟨Value.vnull, Value.vnull⟩, some 0, 1⟩ ∧
    run productsMachine [Event.ext "FETCH" Value.vnull, Event.resolve 0 v] =
      ⟨"success", ⟨v, Value.vnull⟩, none, 1⟩ ∧
    (∀ ctx payload, applyActions loadingOnDone.actions ctx payload =
      ⟨payload, Value.vnull⟩) :=
  ⟨rfl, rfl, rfl, fun _ _ => rfl⟩

/-- Claim C3: error-retry scenario.  From `idle`, `FETCH` enters
`loading`; a rejection with value `e` enters `error` with
`context.error = e`; `RETRY` re-enters `loading` starting a fresh
invocation (new token 1, distinct from token 0); a resolution of that
invocation with value `v` ends in `success` with `context.data = v` and
`context.error = null`. -/
theorem error_retry_scenario (e v : Value) :
    run productsMachine [Event.ext "FETCH" Value.vnull, Event.reject 0 e] =
      ⟨"error", ⟨Value.vnull, e⟩, none, 1⟩ ∧
    run productsMachine [Event.ext "FETCH" Value.vnull, Event.reject 0 e,
        Event.ext "RETRY" Value.vnull] =
      ⟨"loading", ⟨Value.vnull, e⟩, some 1, 2⟩ ∧
    run productsMachine [Event.ext "FETCH" Value.vnull, Event.reject 0 e,
        Event.ext "RETRY" Value.vnull, Event.resolve 1 v] =
      ⟨"success", ⟨v, Value.vnull⟩, none, 2⟩ :=
  ⟨rfl, rfl, rfl⟩

/-- Claim C4: final-state absorption.  Once the machine is in the final
state `success`, sending any event with any payload leaves the whole
interpreter state (state name and context) unchanged, and the step
function being total, no error is raised. -/
theorem final_state_absorption (s : InterpState) (name : String) (payload : Value)
    (h : s.state = "success") :
    step productsMachine s (Event.ext name payload) = s := by
  obtain ⟨st, ctx, atok, nt⟩ := s
  change st = "success" at h
  subst h
  rfl

/-- Witness for C4 at a concrete input: the state reached by a
successful fetch is `success` and absorbs a further `FETCH`. -/
theorem final_state_absorption_witness :
    (run productsMachine [Event.ext "FETCH" Value.vnull,
        Event.resolve 0 Value.vnull]).state = "success" ∧
    step productsMachine
        (run productsMachine [Event.ext "FETCH" Value.vnull, Event.resolve 0 Value.vnull])
        (Event.ext "FETCH" Value.vnull) =
      run productsMachine [Event.ext "FETCH" Value.vnull, Event.resolve 0 Value.vnull] :=
  ⟨rfl, final_state_absorption _ "FETCH" Value.vnull rfl⟩

/-- Claim C5: unknown-event no-op.  For every interpreter state whose
current state node does not declare the sent event name in its `on`
mapping, the send leaves the interpreter state unchanged and the
snapshot delivered is not distinct from the prior one. -/
theorem unknown_event_noop (s : InterpState) (node : StateNode) (name : String) (payload : Value)
    (hn : lookupName s.state productsMachine.states = some node)
    (hu : lookupName name node.onEvents = none) :
    step productsMachine s (Event.ext name payload) = s ∧
    getSnapshot (step productsMachine s (Event.ext name payload)) = getSnapshot s := by
  have hs : step productsMachine s (Event.ext name payload) = s := by
    by_cases hf : node.type = StateType.final
    · simp [step, hn, hf]
    · simp [step, hn, hf, hu]
  exact ⟨hs, by rw [hs]⟩

/-- Witness for C5 at a concrete input: `BOGUS` is not declared in the
`idle` node's `on` mapping and is dropped by the started machine. -/
theorem unknown_event_noop_witness :
    lookupName (startMachine productsMachine).state productsMachine.states = some idleNode ∧
    lookupName "BOGUS" idleNode.onEvents = none ∧
    step productsMachine (startMachine productsMachine) (Event.ext "BOGUS" Value.vnull) =
      startMachine productsMachine :=
  ⟨rfl, rfl,
   (unknown_event_noop (startMachine productsMachine) idleNode "BOGUS" Value.vnull rfl rfl).1⟩

/-- Claim C6: single active state.  For every sequence of events applied
to the started machine, the snapshot's state value is exactly one of the
declared state names `idle`, `loading`, `success`, `error` — a single
name, never undefined and never several. -/
theorem single_active_state (events : List Event) :
    (run productsMachine events).state ∈ ["idle", "loading", "success", "error"] :=
  (runFromInv (startMachine productsMachine) events startInv).1

/-- Claim C7: construction-time validation.  For every machine
definition in which some transition target (an `on.*` target or an
`invoke.onDone`/`onError` target) names a state not declared in
`states`, `createMachine` fails with a `DefinitionError` and produces no
machine value. -/
theorem dangling_target_fails_construction (M : MachineDefinition)
    (x : String × String × String) (hx : x ∈ transitionTargets M)
    (hd : declared M x.2.2 = false) :
    ∃ err, createMachine M = Except.error err := by
  by_cases hinit : declared M M.initial = false
  · refine ⟨DefinitionError.badInitial M.initial, ?_⟩
    unfold createMachine
    rw [if_pos hinit]
  · cases hf : (transitionTargets M).find? (fun y => !(declared M y.2.2)) with
    | none =>
        exfalso
        have hall := List.find?_eq_none.mp hf x hx
        simp [hd] at hall
    | some y =>
        refine ⟨DefinitionError.danglingTarget y.1 y.2.1 y.2.2, ?_⟩
        unfold createMachine
        rw [if_neg hinit, hf]

/-- Witness for C7 at a concrete input: `danglingMachine` declares the
target `b` in state `a`, field `on.GO`, but no state `b`; its
construction fails. -/
theorem dangling_target_fails_construction_witness :
    ("a", "on.GO", "b") ∈ transitionTargets danglingMachine ∧
    declared danglingMachine "b" = false ∧
    ∃ err, createMachine danglingMachine = Except.error err :=
  ⟨by decide, by decide,
   dangling_target_fails_construction danglingMachine ("a", "on.GO", "b")
     (by decide) (by decide)⟩

/-- Claim C8: a service rejection is never thrown to the consumer.  The
step function is total — it returns an interpreter state for every
event, raising nothing — and a rejection value `e` delivered to the
pending invocation in `loading` is represented solely as the transition
to the `error` state with `context.error = e` (and `data`
untouched). -/
theorem rejection_routed_to_error_state (s : InterpState) (tok : Nat) (e : Value)
    (hst : s.state = "loading") (htok : s.activeToken = some tok) :
    step productsMachine s (Event.reject tok e) =
      ⟨"error", ⟨s.context.data, e⟩, none, s.nextToken⟩ := by
  obtain ⟨st, ⟨d, er⟩, atok, nt⟩ := s
  change st = "loading" at hst
  change atok = some tok at htok
  subst hst
  subst htok
  exact step_loading_reject d er tok nt e

/-- Witness for C8 at a concrete input: the fetch rejection
`"network down"` in `loading` lands in `error` with the rejection as
`context.error`. -/
theorem rejection_routed_to_error_state_witness :
    (run productsMachine [Event.ext "FETCH" Value.vnull]).state = "loading" ∧
    (run productsMachine [Event.ext "FETCH" Value.vnull]).activeToken = some 0 ∧
    step productsMachine (run productsMachine [Event.ext "FETCH" Value.vnull])
        (Event.reject 0 (Value.vstr "network down")) =
      ⟨"error",
       ⟨(run productsMachine [Event.ext "FETCH" Value.vnull]).context.data,
        Value.vstr "network down"⟩,
       none,
       (run productsMachine [Event.ext "FETCH" Value.vnull]).nextToken⟩ :=
  ⟨rfl, rfl,
   rejection_routed_to_error_state (run productsMachine [Event.ext "FETCH" Value.vnull])
     0 (Value.vstr "network down") rfl rfl⟩

/-- Claim C9: data is set only on success.  In every interpreter state
reachable from the started machine by any event sequence, if the current
state is not the final `success` state then `context.data` is still
`null`: only the `onDone` action assigns `data`, and its target
`success` is final and absorbing. -/
theorem data_null_outside_success (events : List Event)
    (h : (run productsMachine events).state ≠ "success") :
    (run productsMachine events).context.data = Value.vnull :=
  (runFromInv (startMachine productsMachine) events startInv).2 h

/-- Witness for C9 at a concrete input: after `FETCH` the machine is in
`loading`, not `success`, and `data` is `null`. -/
theorem data_null_outside_success_witness :
    (run productsMachine [Event.ext "FETCH" Value.vnull]).state ≠ "success" ∧
    (run productsMachine [Event.ext "FETCH" Value.vnull]).context.data = Value.vnull :=
  ⟨by decide, data_null_outside_success [Event.ext "FETCH" Value.vnull] (by decide)⟩

/-- Claim C10: trimString truncation.  For every character sequence `s`,
`trimString` returns `s` unchanged when `s` has length at most 20, and
the first 15 characters of `s` followed by `...` (length exactly 18)
when `s` has length greater than 20; hence the result's length is
always at most 20. -/
theorem trimString_spec (s : List Char) :
    (s.length ≤ 20 → trimString s = s) ∧
    (s.length > 20 →
      trimString s = s.take 15 ++ ['.', '.', '.'] ∧ (trimString s).length = 18) ∧
    (trimString s).length ≤ 20 := by
  refine ⟨?_, ?_, ?_⟩
  · intro h
    have hle : ¬ s.length > 20 := by omega
    simp [trimString, hle]
  · intro h
    refine ⟨by simp [trimString, h], ?_⟩
    simp only [trimString, if_pos h, List.length_append, List.length_take,
      List.length_cons, List.length_nil]
    omega
  · by_cases h : s.length > 20
    · simp only [trimString, if_pos h, List.length_append, List.length_take,
        List.length_cons, List.length_nil]
      omega
    · simp only [trimString, if_neg h]
      omega

/-- Witness for C10 at concrete inputs: a 25-character title is
truncated to its first 15 characters plus dots (length 18); a short
title is returned unchanged. -/
theorem trimString_spec_witness :
    ("Mens Casual T Shirts Pack".data.length > 20 ∧
      trimString "Mens Casual T Shirts Pack".data =
        "Mens Casual T Shirts Pack".data.take 15 ++ ['.', '.', '.'] ∧
      (trimString "Mens Casual T Shirts Pack".data).length = 18) ∧
    ("Cap".data.length ≤ 20 ∧ trimString "Cap".data = "Cap".data) :=
  ⟨⟨by decide, (trimString_spec "Mens Casual T Shirts Pack".data).2.1 (by decide)⟩,
   ⟨by decide, (trimString_spec "Cap".data).1 (by decide)⟩⟩
